import Mathlib

/-!
Verification development for the go-gin-sqlx-template backend service.

The Go source is shallowly embedded: pure values become Lean structures,
stateful database code becomes explicit state passing over a `DB` value,
fallible operations return `Except` / `Option`, and external I/O outcomes
(network failures of the broker, the queue, the SQL connection, the
password hasher) are supplied as explicit oracle parameters, so every
control path of the Go functions is represented.

Go errors built with `errors.New` / `fmt.Errorf` are modelled by `GoError`:
`base` for a plain message, `wrap1` for `fmt.Errorf` with one embedded
error, `wrap2` for `fmt.Errorf` with two embedded errors; the format
string is carried verbatim so wrapping structure is visible.
-/

inductive GoError where
  | base (msg : String)
  | wrap1 (fmt : String) (e : GoError)
  | wrap2 (fmt : String) (e1 e2 : GoError)
deriving DecidableEq, Repr

instance {ε α : Type} [DecidableEq ε] [DecidableEq α] : DecidableEq (Except ε α) :=
  fun x y =>
    match x, y with
    | .ok a, .ok b =>
        if h : a = b then isTrue (by rw [h])
        else isFalse (fun hc => by cases hc; exact h rfl)
    | .error a, .error b =>
        if h : a = b then isTrue (by rw [h])
        else isFalse (fun hc => by cases hc; exact h rfl)
    | .ok _, .error _ => isFalse (fun hc => by cases hc)
    | .error _, .ok _ => isFalse (fun hc => by cases hc)

/-- A Go `context.Context` as it matters to this code base: the value stored
under the transaction key `txKey` (`pkg/database/transaction.go`), plus an
opaque remainder standing for every other value the context carries, so
that "invokes fn with the same context" is a non-trivial statement. -/
structure GoContext where
  tx : Option Nat
  rest : Nat
deriving DecidableEq, Repr

/-- Outcome of the callback `fn` passed to `WithTransaction`: normal return
of `nil`, normal return of a non-nil error, or a panic with some value. -/
inductive FnOutcome where
  | ok
  | err (e : GoError)
  | panics (p : Nat)
deriving DecidableEq, Repr

/-- Outcome of `WithTransaction` itself: a normal return (of `nil` or an
error), or a propagated panic. -/
inductive TxResult where
  | normal (e : Option GoError)
  | panicked (p : Nat)
deriving DecidableEq, Repr

/-- The primitive transaction operations `WithTransaction` can issue on the
underlying store, recorded in program order. -/
inductive TxOp where
  | beginTx
  | commitTx
  | rollbackTx
deriving DecidableEq, Repr

/-- I/O outcomes of the store calls `WithTransaction` makes:
`beginResult` is `db.BeginTxx` (a fresh transaction handle or an error),
`rollbackResult` / `commitResult` are the errors, if any, of
`tx.Rollback()` / `tx.Commit()`. -/
structure TxEnv where
  beginResult : Except GoError Nat
  rollbackResult : Option GoError
  commitResult : Option GoError
deriving Repr

/-- `TransactionManager.getTxFromContext` (transaction.go:96-101): the
value stored under `txKey`, if it is a transaction handle. -/
def getTxFromContext (ctx : GoContext) : Option Nat :=
  ctx.tx

/-- Lift of a direct call `return fn(ctx)` (transaction.go:48) to the
result type of `WithTransaction`: errors pass through unchanged and a
panic keeps propagating (no recovery handler is installed on this path). -/
def liftOutcome : FnOutcome → TxResult
  | .ok => .normal none
  | .err e => .normal (some e)
  | .panics p => .panicked p

/-- `TransactionManager.WithTransaction` (transaction.go:43-85).
Returns the call's outcome together with the list of transaction
operations issued on the store, in program order. -/
def TransactionManager.WithTransaction (ctx : GoContext) (env : TxEnv)
    (fn : GoContext → FnOutcome) : TxResult × List TxOp :=
  match getTxFromContext ctx with
  | some _ =>
      (liftOutcome (fn ctx), [])
  | none =>
      match env.beginResult with
      | .error e =>
          (.normal (some (.wrap1 "failed to begin transaction: %w" e)), [])
      | .ok tx =>
          let txCtx : GoContext := { ctx with tx := some tx }
          match fn txCtx with
          | .panics p =>
              (.panicked p, [.beginTx, .rollbackTx])
          | .err e =>
              match env.rollbackResult with
              | some rbErr =>
                  (.normal (some (.wrap2
                    "failed to rollback transaction: %v (original error: %w)"
                    rbErr e)), [.beginTx, .rollbackTx])
              | none =>
                  (.normal (some e), [.beginTx, .rollbackTx])
          | .ok =>
              match env.commitResult with
              | some cErr =>
                  (.normal (some (.wrap1 "failed to commit transaction: %w" cErr)),
                    [.beginTx, .commitTx])
              | none =>
                  (.normal none, [.beginTx, .commitTx])

/-- C2: if `fn` returns a non-nil error `e` when `WithTransaction` runs it
in a context without an active transaction (a transaction was begun), then
a rollback is issued, and: when the rollback succeeds the original error
`e` is returned unchanged; when the rollback fails with `rbErr` the
returned error wraps both `rbErr` and `e`, so neither is dropped. -/
theorem C2_withTransaction_error_path (ctx : GoContext) (env : TxEnv)
    (fn : GoContext → FnOutcome) (t : Nat) (e : GoError)
    (hnotx : ctx.tx = none)
    (hbegin : env.beginResult = .ok t)
    (hfn : fn { ctx with tx := some t } = .err e) :
    (TransactionManager.WithTransaction ctx env fn).2 = [.beginTx, .rollbackTx] ∧
    (env.rollbackResult = none →
      (TransactionManager.WithTransaction ctx env fn).1 = .normal (some e)) ∧
    (∀ rbErr, env.rollbackResult = some rbErr →
      (TransactionManager.WithTransaction ctx env fn).1 = .normal (some (.wrap2
        "failed to rollback transaction: %v (original error: %w)" rbErr e))) := by
  unfold TransactionManager.WithTransaction getTxFromContext
  rw [hnotx, hbegin]
  simp only [hfn]
  refine ⟨?_, ?_, ?_⟩
  · cases h : env.rollbackResult <;> simp [h]
  · intro h; simp [h]
  · intro rbErr h; simp [h]

theorem C2_withTransaction_error_path_witness :
    let ctx : GoContext := ⟨none, 7⟩
    let env : TxEnv := ⟨.ok 1, none, none⟩
    let fn : GoContext → FnOutcome := fun _ => .err (.base "boom")
    (TransactionManager.WithTransaction ctx env fn).2 = [.beginTx, .rollbackTx] ∧
    (env.rollbackResult = none →
      (TransactionManager.WithTransaction ctx env fn).1 = .normal (some (.base "boom"))) ∧
    (∀ rbErr, env.rollbackResult = some rbErr →
      (TransactionManager.WithTransaction ctx env fn).1 = .normal (some (.wrap2
        "failed to rollback transaction: %v (original error: %w)" rbErr (.base "boom")))) :=
  C2_withTransaction_error_path ⟨none, 7⟩ ⟨.ok 1, none, none⟩
    (fun _ => .err (.base "boom")) 1 (.base "boom") rfl rfl rfl

/-- C3: if the supplied context already carries an active transaction,
`WithTransaction` begins nothing: it invokes `fn` directly with the very
same context and issues no transaction operation at all (no begin, no
inner commit, no inner rollback), returning `fn`'s outcome. -/
theorem C3_withTransaction_nested_reuse (ctx : GoContext) (env : TxEnv)
    (fn : GoContext → FnOutcome) (t : Nat)
    (htx : ctx.tx = some t) :
    TransactionManager.WithTransaction ctx env fn = (liftOutcome (fn ctx), []) := by
  unfold TransactionManager.WithTransaction getTxFromContext
  rw [htx]

theorem C3_withTransaction_nested_reuse_witness :
    TransactionManager.WithTransaction ⟨some 5, 3⟩ ⟨.ok 9, none, none⟩ (fun c => .err (.base (toString c.rest)))
      = (liftOutcome ((fun (c : GoContext) => FnOutcome.err (.base (toString c.rest))) ⟨some 5, 3⟩), []) :=
  C3_withTransaction_nested_reuse ⟨some 5, 3⟩ ⟨.ok 9, none, none⟩ _ 5 rfl

/-- C5: if `fn` panics with value `p` inside a transaction begun by
`WithTransaction`, the coordinator issues a rollback and then re-raises the
same panic value `p`; the call never becomes a normal return. -/
theorem C5_withTransaction_panic_path (ctx : GoContext) (env : TxEnv)
    (fn : GoContext → FnOutcome) (t : Nat) (p : Nat)
    (hnotx : ctx.tx = none)
    (hbegin : env.beginResult = .ok t)
    (hfn : fn { ctx with tx := some t } = .panics p) :
    TransactionManager.WithTransaction ctx env fn = (.panicked p, [.beginTx, .rollbackTx]) := by
  unfold TransactionManager.WithTransaction getTxFromContext
  rw [hnotx, hbegin]
  simp [hfn]

theorem C5_withTransaction_panic_path_witness :
    TransactionManager.WithTransaction ⟨none, 0⟩ ⟨.ok 2, some (.base "rb fail"), none⟩ (fun _ => .panics 42)
      = (.panicked 42, [.beginTx, .rollbackTx]) :=
  C5_withTransaction_panic_path ⟨none, 0⟩ ⟨.ok 2, some (.base "rb fail"), none⟩
    (fun _ => .panics 42) 2 42 rfl rfl rfl

/-!
Data model (`internal/model/user.go`) and the relational store.
Timestamps are abstract ticks (`Nat`); `DB.now` is the store clock used
for the SQL `NOW()`, and `DB.nextId` the id sequence backing the
`RETURNING id` of the insert.
-/

structure User where
  id : Int
  email : String
  name : String
  password : String
  createdAt : Nat
  updatedAt : Nat
deriving DecidableEq, Repr

structure UserResponse where
  id : Int
  email : String
  name : String
  createdAt : Nat
  updatedAt : Nat
deriving DecidableEq, Repr

/-- `User.ToResponse` (user.go:70-78): the password is not serialized. -/
def User.toResponse (u : User) : UserResponse :=
  { id := u.id, email := u.email, name := u.name,
    createdAt := u.createdAt, updatedAt := u.updatedAt }

structure CreateUserRequest where
  email : String
  name : String
  password : String
deriving DecidableEq, Repr

structure UpdateUserRequest where
  email : String
  name : String
deriving DecidableEq, Repr

/-- The `users` table together with the id sequence and the store clock. -/
structure DB where
  rows : List User
  nextId : Int
  now : Nat
deriving DecidableEq, Repr

/-- Rows matched by `WHERE id = :id`. -/
def DB.rowsById (db : DB) (id : Int) : List User :=
  db.rows.filter (fun u => u.id = id)

/-- Rows matched by `WHERE email = :email`. -/
def DB.rowsByEmail (db : DB) (email : String) : List User :=
  db.rows.filter (fun u => u.email = email)

/-!
Executor selection (`pkg/database/transaction.go` and
`internal/repository/postgres` — the transactor-aware repository wired by
`cmd/api/container.go`, which constructs it as
`postgres.NewUserRepository(db.DB, txManager)`).
-/

/-- The statement executor a repository call runs on: the shared pool
connection (`*sqlx.DB`) or an active transaction (`*sqlx.Tx`). -/
inductive Executor where
  | pool
  | tx (t : Nat)
deriving DecidableEq, Repr

/-- `TransactionManager.GetExecutor` (transaction.go:87-93): the active
transaction's executor if one is in the context, else the pool. -/
def GetExecutor (ctx : GoContext) : Executor :=
  match getTxFromContext ctx with
  | some t => .tx t
  | none => .pool

/-- The repository's dependency wiring: `db` is always present; the
`transactor` interface field may be nil. -/
structure UserRepositoryDeps where
  transactor : Option Unit
deriving DecidableEq, Repr

/-- `userRepository.getExecutor`: delegates to the transactor's
`GetExecutor` when a transactor was injected, else falls back to the
fixed pool handle `r.db`. -/
def UserRepositoryDeps.getExecutor (r : UserRepositoryDeps) (ctx : GoContext) : Executor :=
  match r.transactor with
  | some _ => GetExecutor ctx
  | none => .pool

/-- StructScan of a row produced by
`SELECT id, email, name, created_at, updated_at` — the password column is
not selected, so the scanned struct keeps the zero value there. -/
def scanUserNoPassword (u : User) : User :=
  { u with password := "" }

/-!
Repository operations (the transactor-aware `userRepository`).  Each
operation returns its domain result, the possibly-updated store, and the
executor it obtained via `getExecutor(ctx)` for its statement; statement
I/O failure is injected through an optional `qErr` oracle where a claim
needs that path.
-/

/-- `userRepository.Create`: `INSERT INTO users ... RETURNING id,
created_at, updated_at`; on success the entity is completed with the
server-assigned id and timestamps. -/
def userRepository.Create (r : UserRepositoryDeps) (ctx : GoContext) (db : DB)
    (user : User) (qErr : Option GoError) :
    Except GoError User × DB × Executor :=
  let exec := r.getExecutor ctx
  match qErr with
  | some e => (.error (.wrap1 "failed to create user: %w" e), db, exec)
  | none =>
      let inserted : User :=
        { user with id := db.nextId, createdAt := db.now, updatedAt := db.now }
      (.ok inserted,
       { db with rows := db.rows ++ [inserted], nextId := db.nextId + 1 },
       exec)

/-- `userRepository.GetByID`: `SELECT id, email, name, created_at,
updated_at FROM users WHERE id = :id`; `if !row.Next()` reports NotFound. -/
def userRepository.GetByID (r : UserRepositoryDeps) (ctx : GoContext) (db : DB)
    (id : Int) (qErr : Option GoError) :
    Except GoError User × Executor :=
  let exec := r.getExecutor ctx
  match qErr with
  | some e => (.error (.wrap1 "failed to get user: %w" e), exec)
  | none =>
      match db.rowsById id with
      | [] => (.error (.base "user not found"), exec)
      | u :: _ => (.ok (scanUserNoPassword u), exec)

/-- `userRepository.GetByEmail`: same shape as `GetByID`, keyed on the
natural key `email`. -/
def userRepository.GetByEmail (r : UserRepositoryDeps) (ctx : GoContext) (db : DB)
    (email : String) (qErr : Option GoError) :
    Except GoError User × Executor :=
  let exec := r.getExecutor ctx
  match qErr with
  | some e => (.error (.wrap1 "failed to get user: %w" e), exec)
  | none =>
      match db.rowsByEmail email with
      | [] => (.error (.base "user not found"), exec)
      | u :: _ => (.ok (scanUserNoPassword u), exec)

/-- `userRepository.Update`: `UPDATE users SET email = :email, name =
:name, updated_at = NOW() WHERE id = :id RETURNING updated_at`; zero
affected rows reports NotFound. -/
def userRepository.Update (r : UserRepositoryDeps) (ctx : GoContext) (db : DB)
    (user : User) (qErr : Option GoError) :
    Except GoError User × DB × Executor :=
  let exec := r.getExecutor ctx
  match qErr with
  | some e => (.error (.wrap1 "failed to update user: %w" e), db, exec)
  | none =>
      match db.rowsById user.id with
      | [] => (.error (.base "user not found"), db, exec)
      | _ :: _ =>
          let newRows := db.rows.map (fun u =>
            if u.id = user.id then
              { u with email := user.email, name := user.name, updatedAt := db.now }
            else u)
          (.ok { user with updatedAt := db.now }, { db with rows := newRows }, exec)

/-- `userRepository.Delete`: `DELETE FROM users WHERE id = :id`; zero
affected rows reports NotFound. -/
def userRepository.Delete (r : UserRepositoryDeps) (ctx : GoContext) (db : DB)
    (id : Int) (qErr : Option GoError) :
    Except GoError Unit × DB × Executor :=
  let exec := r.getExecutor ctx
  match qErr with
  | some e => (.error (.wrap1 "failed to delete user: %w" e), db, exec)
  | none =>
      match db.rowsById id with
      | [] => (.error (.base "user not found"), db, exec)
      | _ :: _ =>
          (.ok (), { db with rows := db.rows.filter (fun u => ¬ u.id = id) }, exec)

structure SortParams where
  field : String
  direction : String
deriving DecidableEq, Repr

structure PaginationParams where
  page : Int
  limit : Int
  offset : Int
deriving DecidableEq, Repr

/-- `FilterParams` (filter.go:11): a `map[string]string` of the extracted
filter values, as an association list. -/
abbrev FilterParams := List (String × String)

/-- `FilterParams.Get` (filter.go:65-68). -/
def FilterParams.get (f : FilterParams) (key : String) : Option String :=
  (f.find? (fun kv => kv.1 == key)).map (fun kv => kv.2)

/-- Case-insensitive containment: the semantics of the generated
`column ILIKE '%' || v || '%'` predicate. -/
def ilikeContains (column v : String) : Bool :=
  v == "" || ((column.toLower).splitOn (v.toLower)).length != 1

/-- Rows passing the `WHERE` clause `GetAll`/`Count` build from the
allow-listed filters (`name ILIKE :name AND email ILIKE :email`). -/
def filterRows (rows : List User) (filters : FilterParams) : List User :=
  rows.filter (fun u =>
    (match filters.get "name" with | some v => ilikeContains u.name v | none => true) &&
    (match filters.get "email" with | some v => ilikeContains u.email v | none => true))

/-- Relational semantics of the `ORDER BY` clause the query builder emits
for one `SortParams` list entry, as a `≤`-style relation on rows. -/
def sortLe (s : SortParams) (a b : User) : Prop :=
  match s.field, s.direction with
  | "id", "desc" => b.id ≤ a.id
  | "id", _ => a.id ≤ b.id
  | "email", "desc" => b.email ≤ a.email
  | "email", _ => a.email ≤ b.email
  | "name", "desc" => b.name ≤ a.name
  | "name", _ => a.name ≤ b.name
  | "updated_at", "desc" => b.updatedAt ≤ a.updatedAt
  | "updated_at", _ => a.updatedAt ≤ b.updatedAt
  | _, "desc" => b.createdAt ≤ a.createdAt
  | _, _ => a.createdAt ≤ b.createdAt

instance (s : SortParams) : DecidableRel (sortLe s) := by
  intro a b
  unfold sortLe
  repeat' split
  all_goals infer_instance

/-- Ordering of the emitted query: the first sort key; Postgres breaks
remaining ties arbitrarily, and a stable sort refines that. -/
def orderRows (rows : List User) (sorts : List SortParams) : List User :=
  match sorts with
  | [] => rows
  | s :: _ => rows.insertionSort (sortLe s)

/-- `userRepository.GetAll` (transactor-aware version): builds
`SELECT ... [WHERE ...] [ORDER BY ...] LIMIT :limit OFFSET :offset` via
the query builder and runs it; rows are scanned without the password. -/
def userRepository.GetAll (r : UserRepositoryDeps) (ctx : GoContext) (db : DB)
    (pagination : PaginationParams) (filters : FilterParams)
    (sorts : List SortParams) (qErr : Option GoError) :
    Except GoError (List User) × Executor :=
  let exec := r.getExecutor ctx
  match qErr with
  | some e => (.error (.wrap1 "failed to get users: %w" e), exec)
  | none =>
      let selected := orderRows (filterRows db.rows filters) sorts
      let paged := (selected.drop pagination.offset.toNat).take pagination.limit.toNat
      (.ok (paged.map scanUserNoPassword), exec)

/-- `userRepository.Count`: `SELECT COUNT(*) FROM users [WHERE ...]`. -/
def userRepository.Count (r : UserRepositoryDeps) (ctx : GoContext) (db : DB)
    (filters : FilterParams) (qErr : Option GoError) :
    Except GoError Int × Executor :=
  let exec := r.getExecutor ctx
  match qErr with
  | some e => (.error (.wrap1 "failed to count users: %w" e), exec)
  | none => (.ok (filterRows db.rows filters).length, exec)

/-- C4: every repository operation — Create, GetByID, GetByEmail, GetAll,
Update, Delete, Count — obtains its statement executor by consulting the
transaction-aware `GetExecutor` on the call's context (given the
transactor wired in by the container), so on a context carrying an active
transaction the statement runs on that transaction's executor, and
otherwise on the shared pool. -/
theorem C4_repository_uses_context_executor (r : UserRepositoryDeps)
    (hwired : r.transactor = some ()) :
    (∀ ctx db user qErr, (userRepository.Create r ctx db user qErr).2.2 = GetExecutor ctx) ∧
    (∀ ctx db id qErr, (userRepository.GetByID r ctx db id qErr).2 = GetExecutor ctx) ∧
    (∀ ctx db email qErr, (userRepository.GetByEmail r ctx db email qErr).2 = GetExecutor ctx) ∧
    (∀ ctx db p f s qErr, (userRepository.GetAll r ctx db p f s qErr).2 = GetExecutor ctx) ∧
    (∀ ctx db user qErr, (userRepository.Update r ctx db user qErr).2.2 = GetExecutor ctx) ∧
    (∀ ctx db id qErr, (userRepository.Delete r ctx db id qErr).2.2 = GetExecutor ctx) ∧
    (∀ ctx db f qErr, (userRepository.Count r ctx db f qErr).2 = GetExecutor ctx) ∧
    (∀ ctx t, ctx.tx = some t → GetExecutor ctx = .tx t) ∧
    (∀ ctx, ctx.tx = none → GetExecutor ctx = .pool) := by
  have hget : ∀ ctx, r.getExecutor ctx = GetExecutor ctx := by
    intro ctx
    unfold UserRepositoryDeps.getExecutor
    rw [hwired]
  refine ⟨?_, ?_, ?_, ?_, ?_, ?_, ?_, ?_, ?_⟩
  · intro ctx db user qErr
    unfold userRepository.Create
    cases qErr <;> simp [hget]
  · intro ctx db id qErr
    unfold userRepository.GetByID
    cases qErr with
    | none => cases h : db.rowsById id <;> simp [hget, h]
    | some e => simp [hget]
  · intro ctx db email qErr
    unfold userRepository.GetByEmail
    cases qErr with
    | none => cases h : db.rowsByEmail email <;> simp [hget, h]
    | some e => simp [hget]
  · intro ctx db p f s qErr
    unfold userRepository.GetAll
    cases qErr <;> simp [hget]
  · intro ctx db user qErr
    unfold userRepository.Update
    cases qErr with
    | none => cases h : db.rowsById user.id <;> simp [hget, h]
    | some e => simp [hget]
  · intro ctx db id qErr
    unfold userRepository.Delete
    cases qErr with
    | none => cases h : db.rowsById id <;> simp [hget, h]
    | some e => simp [hget]
  · intro ctx db f qErr
    unfold userRepository.Count
    cases qErr <;> simp [hget]
  · intro ctx t htx
    unfold GetExecutor getTxFromContext
    rw [htx]
  · intro ctx htx
    unfold GetExecutor getTxFromContext
    rw [htx]

theorem C4_repository_uses_context_executor_witness :
    (∀ ctx db user qErr,
      (userRepository.Create ⟨some ()⟩ ctx db user qErr).2.2 = GetExecutor ctx) ∧
    (∀ ctx db id qErr,
      (userRepository.GetByID ⟨some ()⟩ ctx db id qErr).2 = GetExecutor ctx) ∧
    (∀ ctx db email qErr,
      (userRepository.GetByEmail ⟨some ()⟩ ctx db email qErr).2 = GetExecutor ctx) ∧
    (∀ ctx db p f s qErr,
      (userRepository.GetAll ⟨some ()⟩ ctx db p f s qErr).2 = GetExecutor ctx) ∧
    (∀ ctx db user qErr,
      (userRepository.Update ⟨some ()⟩ ctx db user qErr).2.2 = GetExecutor ctx) ∧
    (∀ ctx db id qErr,
      (userRepository.Delete ⟨some ()⟩ ctx db id qErr).2.2 = GetExecutor ctx) ∧
    (∀ ctx db f qErr,
      (userRepository.Count ⟨some ()⟩ ctx db f qErr).2 = GetExecutor ctx) ∧
    (∀ ctx t, ctx.tx = some t → GetExecutor ctx = .tx t) ∧
    (∀ ctx, ctx.tx = none → GetExecutor ctx = .pool) :=
  C4_repository_uses_context_executor ⟨some ()⟩ rfl

/-- C7: when the store returns zero rows for an id, `GetByID` returns the
NotFound error "user not found" — never a zero-valued entity with a nil
error — and likewise `GetByEmail` when no row matches the email. -/
theorem C7_get_zero_rows_not_found (r : UserRepositoryDeps) (ctx : GoContext)
    (db : DB) (id : Int) (email : String)
    (hid : db.rowsById id = [])
    (hemail : db.rowsByEmail email = []) :
    ((userRepository.GetByID r ctx db id none).1 = .error (.base "user not found") ∧
      ∀ u, (userRepository.GetByID r ctx db id none).1 ≠ .ok u) ∧
    ((userRepository.GetByEmail r ctx db email none).1 = .error (.base "user not found") ∧
      ∀ u, (userRepository.GetByEmail r ctx db email none).1 ≠ .ok u) := by
  unfold userRepository.GetByID userRepository.GetByEmail
  rw [hid, hemail]
  simp

theorem C7_get_zero_rows_not_found_witness :
    ((userRepository.GetByID ⟨some ()⟩ ⟨none, 0⟩ ⟨[], 1, 0⟩ 42 none).1
        = .error (.base "user not found") ∧
      ∀ u, (userRepository.GetByID ⟨some ()⟩ ⟨none, 0⟩ ⟨[], 1, 0⟩ 42 none).1 ≠ .ok u) ∧
    ((userRepository.GetByEmail ⟨some ()⟩ ⟨none, 0⟩ ⟨[], 1, 0⟩ "a@b.c" none).1
        = .error (.base "user not found") ∧
      ∀ u, (userRepository.GetByEmail ⟨some ()⟩ ⟨none, 0⟩ ⟨[], 1, 0⟩ "a@b.c" none).1 ≠ .ok u) :=
  C7_get_zero_rows_not_found ⟨some ()⟩ ⟨none, 0⟩ ⟨[], 1, 0⟩ 42 "a@b.c" rfl rfl

/-!
Write orchestrator (`internal/usecase/impl/user_usecase_impl.go`, the
full-featured variant wired by the container: repository, transaction
manager, asynq client, pubsub client, config, logger).  Log calls are
recorded as entries carrying the format string and, for error logs, the
logged error.
-/

inductive LogEntry where
  | errorf (fmt : String) (e : GoError)
  | infof (fmt : String)
deriving DecidableEq, Repr

/-- The usecase's read-before-write uniqueness pre-check
(`existingUser, _ := u.userRepo.GetByEmail(ctx, req.Email)`): the
returned entity when the lookup finds one; the lookup's error, if any,
is discarded. -/
def precheckExisting (r : UserRepositoryDeps) (ctx : GoContext) (db : DB)
    (email : String) (lookupErr : Option GoError) : Option User :=
  match (userRepository.GetByEmail r ctx db email lookupErr).1 with
  | .ok u => some u
  | .error _ => none

/-- `userUsecase.CreateUser`.  Oracles: `lookupErr` — I/O failure of the
pre-check query; `hashO` — result of `bcrypt.GenerateFromPassword`;
`insertErr` — I/O failure of the INSERT; `publishO` — result of
`pubsubClient.Publish` (message id or error); `taskO` — the task built by
`worker.NewTelegramMessageTask` (`none` when construction failed, its
error being discarded); `enqueueO` — result of `asynqClient.Enqueue`.
Returns the caller-visible result, the store after the call, and the log. -/
def userUsecase.CreateUser (r : UserRepositoryDeps) (ctx : GoContext) (db : DB)
    (req : CreateUserRequest) (lookupErr : Option GoError)
    (hashO : Except GoError String) (insertErr : Option GoError)
    (publishO : Except GoError String) (taskO : Option Unit)
    (enqueueO : Except GoError Unit) :
    Except GoError UserResponse × DB × List LogEntry :=
  match precheckExisting r ctx db req.email lookupErr with
  | some _ => (.error (.base "email already exists"), db, [])
  | none =>
      match hashO with
      | .error e => (.error (.wrap1 "failed to hash password: %w" e), db, [])
      | .ok hashed =>
          let user : User :=
            { id := 0, email := req.email, name := req.name,
              password := hashed, createdAt := 0, updatedAt := 0 }
          match userRepository.Create r ctx db user insertErr with
          | (.error e, db2, _) => (.error e, db2, [])
          | (.ok inserted, db2, _) =>
              let publishLog :=
                match publishO with
                | .error e => LogEntry.errorf "Failed to publish pubsub message: %v" e
                | .ok _ => LogEntry.infof "Published message: id=%s"
              let enqueueLogs :=
                match taskO with
                | none => []
                | some _ =>
                    match enqueueO with
                    | .error e => [LogEntry.errorf "Failed to enqueue telegram task: %v" e]
                    | .ok _ => [LogEntry.infof "Enqueued task: id=%s queue=%s"]
              (.ok inserted.toResponse, db2, publishLog :: enqueueLogs)

/-- Tail of `userUsecase.UpdateUser` after the email-conflict gate:
applies the partial name update, persists, then best-effort enqueues the
notification task. -/
def updateRest (r : UserRepositoryDeps) (ctx : GoContext) (db : DB)
    (user1 : User) (req : UpdateUserRequest) (updErr : Option GoError)
    (taskO : Option Unit) (enqueueO : Except GoError Unit) :
    Except GoError UserResponse × DB × List LogEntry :=
  let user2 := if req.name != "" then { user1 with name := req.name } else user1
  match userRepository.Update r ctx db user2 updErr with
  | (.error e, db2, _) => (.error e, db2, [])
  | (.ok updated, db2, _) =>
      let logs :=
        match taskO with
        | none => []
        | some _ =>
            match enqueueO with
            | .error e => [LogEntry.errorf "Failed to enqueue telegram task: %v" e]
            | .ok _ => [LogEntry.infof "Enqueued task: id=%s queue=%s"]
      (.ok updated.toResponse, db2, logs)

/-- `userUsecase.UpdateUser`: loads the current entity, re-validates
uniqueness only when the email is being changed, applies only the fields
present in the partial request, persists, then best-effort enqueues. -/
def userUsecase.UpdateUser (r : UserRepositoryDeps) (ctx : GoContext) (db : DB)
    (id : Int) (req : UpdateUserRequest) (getErr lookupErr updErr : Option GoError)
    (taskO : Option Unit) (enqueueO : Except GoError Unit) :
    Except GoError UserResponse × DB × List LogEntry :=
  match (userRepository.GetByID r ctx db id getErr).1 with
  | .error e => (.error e, db, [])
  | .ok user0 =>
      if req.email != "" && req.email != user0.email then
        match precheckExisting r ctx db req.email lookupErr with
        | some _ => (.error (.base "email already exists"), db, [])
        | none =>
            updateRest r ctx db { user0 with email := req.email } req updErr taskO enqueueO
      else
        updateRest r ctx db user0 req updErr taskO enqueueO

/-- C1: when the create request passes the uniqueness pre-check, the
password hash is produced, and the repository insert succeeds, CreateUser
returns the created user's response and the inserted row stays in the
store, for every outcome of the message-bus publish and of the task-queue
enqueue; dispatch failures only add error log entries. -/
theorem C1_create_dispatch_failure_isolated (r : UserRepositoryDeps)
    (ctx : GoContext) (db : DB) (req : CreateUserRequest)
    (lookupErr : Option GoError) (hashed : String)
    (publishO : Except GoError String) (taskO : Option Unit)
    (enqueueO : Except GoError Unit)
    (hpre : precheckExisting r ctx db req.email lookupErr = none) :
    (userUsecase.CreateUser r ctx db req lookupErr (.ok hashed) none publishO taskO enqueueO).1
      = .ok (User.toResponse
          { id := db.nextId, email := req.email, name := req.name,
            password := hashed, createdAt := db.now, updatedAt := db.now }) ∧
    (userUsecase.CreateUser r ctx db req lookupErr (.ok hashed) none publishO taskO enqueueO).2.1.rows
      = db.rows ++
          [{ id := db.nextId, email := req.email, name := req.name,
             password := hashed, createdAt := db.now, updatedAt := db.now }] ∧
    (∀ pe, publishO = .error pe →
      LogEntry.errorf "Failed to publish pubsub message: %v" pe
        ∈ (userUsecase.CreateUser r ctx db req lookupErr (.ok hashed) none publishO taskO enqueueO).2.2) ∧
    (∀ qe, taskO = some () → enqueueO = .error qe →
      LogEntry.errorf "Failed to enqueue telegram task: %v" qe
        ∈ (userUsecase.CreateUser r ctx db req lookupErr (.ok hashed) none publishO taskO enqueueO).2.2) := by
  unfold userUsecase.CreateUser userRepository.Create
  rw [hpre]
  refine ⟨by simp, by simp, ?_, ?_⟩
  · intro pe hpe
    cases taskO <;> simp [hpe]
  · intro qe htask hqe
    cases publishO <;> simp [htask, hqe]

theorem C1_create_dispatch_failure_isolated_witness :
    (userUsecase.CreateUser ⟨some ()⟩ ⟨none, 0⟩ ⟨[], 1, 5⟩ ⟨"a@b.c", "Ann", "pw"⟩
        none (.ok "h") none (.error (.base "broker down")) (some ())
        (.error (.base "queue down"))).1
      = .ok (User.toResponse
          { id := 1, email := "a@b.c", name := "Ann", password := "h",
            createdAt := 5, updatedAt := 5 }) ∧
    (userUsecase.CreateUser ⟨some ()⟩ ⟨none, 0⟩ ⟨[], 1, 5⟩ ⟨"a@b.c", "Ann", "pw"⟩
        none (.ok "h") none (.error (.base "broker down")) (some ())
        (.error (.base "queue down"))).2.1.rows
      = [] ++ [{ id := 1, email := "a@b.c", name := "Ann", password := "h",
                 createdAt := 5, updatedAt := 5 }] ∧
    (∀ pe, (Except.error (GoError.base "broker down") : Except GoError String) = .error pe →
      LogEntry.errorf "Failed to publish pubsub message: %v" pe
        ∈ (userUsecase.CreateUser ⟨some ()⟩ ⟨none, 0⟩ ⟨[], 1, 5⟩ ⟨"a@b.c", "Ann", "pw"⟩
            none (.ok "h") none (.error (.base "broker down")) (some ())
            (.error (.base "queue down"))).2.2) ∧
    (∀ qe, (some () : Option Unit) = some () →
      (Except.error (GoError.base "queue down") : Except GoError Unit) = .error qe →
      LogEntry.errorf "Failed to enqueue telegram task: %v" qe
        ∈ (userUsecase.CreateUser ⟨some ()⟩ ⟨none, 0⟩ ⟨[], 1, 5⟩ ⟨"a@b.c", "Ann", "pw"⟩
            none (.ok "h") none (.error (.base "broker down")) (some ())
            (.error (.base "queue down"))).2.2) :=
  C1_create_dispatch_failure_isolated ⟨some ()⟩ ⟨none, 0⟩ ⟨[], 1, 5⟩
    ⟨"a@b.c", "Ann", "pw"⟩ none "h" (.error (.base "broker down")) (some ())
    (.error (.base "queue down")) rfl

/-- C6: when the existence lookup succeeds and finds a user with the
requested email, CreateUser returns the conflict error "email already
exists", the store is untouched and the row count is unchanged. -/
theorem C6_create_conflict_no_insert (r : UserRepositoryDeps) (ctx : GoContext)
    (db : DB) (req : CreateUserRequest) (u : User) (rest : List User)
    (hashO : Except GoError String) (insertErr : Option GoError)
    (publishO : Except GoError String) (taskO : Option Unit)
    (enqueueO : Except GoError Unit)
    (hfound : db.rowsByEmail req.email = u :: rest) :
    (userUsecase.CreateUser r ctx db req none hashO insertErr publishO taskO enqueueO).1
      = .error (.base "email already exists") ∧
    (userUsecase.CreateUser r ctx db req none hashO insertErr publishO taskO enqueueO).2.1
      = db ∧
    (userUsecase.CreateUser r ctx db req none hashO insertErr publishO taskO enqueueO).2.1.rows.length
      = db.rows.length := by
  unfold userUsecase.CreateUser precheckExisting userRepository.GetByEmail
  rw [hfound]
  simp

theorem C6_create_conflict_no_insert_witness :
    (userUsecase.CreateUser ⟨some ()⟩ ⟨none, 0⟩
        ⟨[⟨1, "a@b.c", "Ann", "h", 0, 0⟩], 2, 9⟩ ⟨"a@b.c", "Bob", "pw"⟩
        none (.ok "h2") none (.ok "mid") (some ()) (.ok ())).1
      = .error (.base "email already exists") ∧
    (userUsecase.CreateUser ⟨some ()⟩ ⟨none, 0⟩
        ⟨[⟨1, "a@b.c", "Ann", "h", 0, 0⟩], 2, 9⟩ ⟨"a@b.c", "Bob", "pw"⟩
        none (.ok "h2") none (.ok "mid") (some ()) (.ok ())).2.1
      = ⟨[⟨1, "a@b.c", "Ann", "h", 0, 0⟩], 2, 9⟩ ∧
    (userUsecase.CreateUser ⟨some ()⟩ ⟨none, 0⟩
        ⟨[⟨1, "a@b.c", "Ann", "h", 0, 0⟩], 2, 9⟩ ⟨"a@b.c", "Bob", "pw"⟩
        none (.ok "h2") none (.ok "mid") (some ()) (.ok ())).2.1.rows.length
      = (⟨[⟨1, "a@b.c", "Ann", "h", 0, 0⟩], 2, 9⟩ : DB).rows.length :=
  C6_create_conflict_no_insert ⟨some ()⟩ ⟨none, 0⟩
    ⟨[⟨1, "a@b.c", "Ann", "h", 0, 0⟩], 2, 9⟩ ⟨"a@b.c", "Bob", "pw"⟩
    ⟨1, "a@b.c", "Ann", "h", 0, 0⟩ [] (.ok "h2") none (.ok "mid") (some ()) (.ok ())
    (by decide)

/-- A per-row rewrite that does not touch the filtered column commutes
with the `WHERE` filter (used to track the `UPDATE ... WHERE id = :id`
statement through the table). -/
theorem filter_map_of_pred_invariant (g : User → User) (p : User → Bool)
    (hg : ∀ u, p (g u) = p u) (l : List User) :
    (l.map g).filter p = (l.filter p).map g := by
  induction l with
  | nil => rfl
  | cons a t ih =>
      simp only [List.map_cons, List.filter_cons, hg a]
      cases h : p a <;> simp [h, ih]

/-- C10: when the user exists and the update request's email field is
empty, UpdateUser succeeds and leaves the stored email at its pre-update
value: the row keeps its email, its name changes exactly when the request
carries a name (an empty body changes neither), and only `updated_at` is
refreshed. -/
theorem C10_update_empty_email_preserves_email (r : UserRepositoryDeps)
    (ctx : GoContext) (db : DB) (id : Int) (req : UpdateUserRequest)
    (u0 : User) (rest : List User) (taskO : Option Unit)
    (enqueueO : Except GoError Unit)
    (hrow : db.rowsById id = u0 :: rest)
    (hemail : req.email = "") :
    (userUsecase.UpdateUser r ctx db id req none none none taskO enqueueO).1
      = .ok { id := u0.id, email := u0.email,
              name := if req.name != "" then req.name else u0.name,
              createdAt := u0.createdAt, updatedAt := db.now } ∧
    ((userUsecase.UpdateUser r ctx db id req none none none taskO enqueueO).2.1.rowsById id).head?
      = some { u0 with name := if req.name != "" then req.name else u0.name,
                       updatedAt := db.now } := by
  have hid : u0.id = id := by
    have hmem : u0 ∈ db.rowsById id := by
      rw [hrow]; exact List.mem_cons_self u0 rest
    unfold DB.rowsById at hmem
    simpa using (List.mem_filter.mp hmem).2
  unfold userUsecase.UpdateUser userRepository.GetByID
  rw [hrow, hemail]
  simp only [bne_self_eq_false, Bool.false_and, Bool.false_eq_true, if_false]
  unfold updateRest userRepository.Update scanUserNoPassword
  cases hn : req.name != "" <;>
    simp only [hn, Bool.false_eq_true, if_false, if_true, Bool.true_eq_false]
  all_goals {
    rw [show ∀ (a b c d e f : _), (User.mk a b c d e f).id = a from fun _ _ _ _ _ _ => rfl]
    rw [hid, hrow]
    constructor
    · rfl
    · show (DB.rowsById _ id).head? = _
      unfold DB.rowsById
      rw [filter_map_of_pred_invariant _ _ (by
        intro u
        cases h : decide (u.id = id) <;>
          simp_all [User.mk.injEq])]
      rw [show db.rows.filter (fun u => decide (u.id = id)) = db.rowsById id from rfl, hrow]
      simp [hid]
  }

theorem C10_update_empty_email_preserves_email_witness :
    (userUsecase.UpdateUser ⟨some ()⟩ ⟨none, 0⟩
        ⟨[⟨1, "a@b.c", "Ann", "h", 0, 0⟩], 2, 9⟩ 1 ⟨"", "Bobby"⟩
        none none none (some ()) (.ok ())).1
      = .ok { id := (1 : Int), email := "a@b.c",
              name := if ("Bobby" : String) != "" then "Bobby" else "Ann",
              createdAt := 0, updatedAt := 9 } ∧
    ((userUsecase.UpdateUser ⟨some ()⟩ ⟨none, 0⟩
        ⟨[⟨1, "a@b.c", "Ann", "h", 0, 0⟩], 2, 9⟩ 1 ⟨"", "Bobby"⟩
        none none none (some ()) (.ok ())).2.1.rowsById 1).head?
      = some { (⟨1, "a@b.c", "Ann", "h", 0, 0⟩ : User) with
               name := if ("Bobby" : String) != "" then "Bobby" else "Ann",
               updatedAt := 9 } :=
  C10_update_empty_email_preserves_email ⟨some ()⟩ ⟨none, 0⟩
    ⟨[⟨1, "a@b.c", "Ann", "h", 0, 0⟩], 2, 9⟩ 1 ⟨"", "Bobby"⟩
    ⟨1, "a@b.c", "Ann", "h", 0, 0⟩ [] (some ()) (.ok ()) (by decide) rfl

/-!
Go string primitives used by the query-parsing utilities, implemented
over the character list so that concrete evaluation is structural:
`goSplit` is `strings.Split` with a one-character separator, `goToLower`
is `strings.ToLower`, `goJoin` is `strings.Join`.
-/

def splitCharAux (sep : Char) : List Char → List Char → List (List Char)
  | [], acc => [acc.reverse]
  | c :: rest, acc =>
      if c = sep then acc.reverse :: splitCharAux sep rest []
      else splitCharAux sep rest (c :: acc)

def goSplit (s : String) (sep : Char) : List String :=
  (splitCharAux sep s.data []).map String.mk

def goToLower (s : String) : String :=
  ⟨s.data.map Char.toLower⟩

def goJoin (parts : List String) (sep : String) : String :=
  match parts with
  | [] => ""
  | p :: rest => rest.foldl (fun acc s => acc ++ sep ++ s) p

/-- `c.Query(key)` in gin: the first value recorded for the query key, or
the empty string when the key is absent. -/
def getQuery (q : List (String × String)) (key : String) : String :=
  match q.find? (fun kv => kv.1 == key) with
  | some kv => kv.2
  | none => ""

/-- `strconv.Atoi`: optional sign, one or more ASCII digits, 64-bit
range; everything else is an error (`parseIntParam` maps any error to
the default). -/
def goAtoi (s : String) : Option Int :=
  let withSign : Int × List Char :=
    match s.data with
    | '+' :: rest => (1, rest)
    | '-' :: rest => (-1, rest)
    | cs => (1, cs)
  match withSign with
  | (sign, digits) =>
      if digits.isEmpty ∨ ¬ digits.all Char.isDigit then none
      else
        let n : Nat := digits.foldl (fun acc c => acc * 10 + (c.toNat - 48)) 0
        let v : Int := sign * n
        if v < -(2 ^ 63) ∨ v > 2 ^ 63 - 1 then none else some v

/-- `parseIntParam` (pagination.go:55-67): empty or unparsable values
fall back to the default. -/
def parseIntParam (q : List (String × String)) (key : String) (defaultValue : Int) : Int :=
  let valueStr := getQuery q key
  if valueStr = "" then defaultValue
  else
    match goAtoi valueStr with
    | none => defaultValue
    | some v => v

def paginationDefaultPage : Int := 1

def paginationDefaultLimit : Int := 10

/-- `ParsePagination` (pagination.go:27-52): coerces out-of-range pages
and limits instead of rejecting them, then derives the offset. -/
def ParsePagination (q : List (String × String)) : PaginationParams :=
  let page0 := parseIntParam q "page" paginationDefaultPage
  let limit0 := parseIntParam q "limit" paginationDefaultLimit
  let page := if page0 < 1 then paginationDefaultPage else page0
  let limit1 := if limit0 < 1 then paginationDefaultLimit else limit0
  let limit := if limit1 > 100 then 100 else limit1
  { page := page, limit := limit, offset := (page - 1) * limit }

/-- C9: pagination inputs are coerced, never rejected: a parsed page
below 1 becomes the default page 1, a parsed limit below 1 becomes the
default limit 10, a parsed limit above 100 is clamped to 100, and the
resulting offset is always (page - 1) * limit over the coerced values. -/
theorem C9_pagination_coerced (q : List (String × String)) :
    (parseIntParam q "page" paginationDefaultPage < 1 →
      (ParsePagination q).page = 1) ∧
    (parseIntParam q "limit" paginationDefaultLimit < 1 →
      (ParsePagination q).limit = 10) ∧
    (parseIntParam q "limit" paginationDefaultLimit > 100 →
      (ParsePagination q).limit = 100) ∧
    (ParsePagination q).offset
      = ((ParsePagination q).page - 1) * (ParsePagination q).limit := by
  unfold ParsePagination paginationDefaultPage paginationDefaultLimit
  dsimp only
  refine ⟨?_, ?_, ?_, rfl⟩
  · intro h; simp [h]
  · intro h
    rw [if_pos h]
    norm_num
  · intro h
    have h1 : ¬ parseIntParam q "limit" 10 < 1 := by omega
    rw [if_neg h1, if_pos h]

theorem C9_pagination_coerced_witness :
    (parseIntParam [("page", "0"), ("limit", "500")] "page" paginationDefaultPage < 1 →
      (ParsePagination [("page", "0"), ("limit", "500")]).page = 1) ∧
    (parseIntParam [("page", "0"), ("limit", "500")] "limit" paginationDefaultLimit < 1 →
      (ParsePagination [("page", "0"), ("limit", "500")]).limit = 10) ∧
    (parseIntParam [("page", "0"), ("limit", "500")] "limit" paginationDefaultLimit > 100 →
      (ParsePagination [("page", "0"), ("limit", "500")]).limit = 100) ∧
    (ParsePagination [("page", "0"), ("limit", "500")]).offset
      = ((ParsePagination [("page", "0"), ("limit", "500")]).page - 1)
          * (ParsePagination [("page", "0"), ("limit", "500")]).limit :=
  C9_pagination_coerced [("page", "0"), ("limit", "500")]

/-!
Sort parsing (`pkg/utils/sort.go`) and filter parsing
(`pkg/utils/filter.go`), as consumed by the list endpoint handler.
-/

structure SortValidationError where
  invalidFields : List String
  invalidDirections : List String
deriving DecidableEq, Repr

/-- `SortValidationError.Error()` (sort.go:83-99). -/
def SortValidationError.errorMessage (e : SortValidationError) : String :=
  let parts : List String :=
    (if e.invalidFields.length > 0 then
      ["invalid sort field: " ++ goJoin e.invalidFields ","] else []) ++
    (if e.invalidDirections.length > 0 then
      ["invalid sort direction: " ++ goJoin e.invalidDirections ","] else [])
  goJoin parts "\n"

/-- Loop state of `ParseSorts` (sort.go:29-34): accumulated sorts,
accumulated invalid fields and directions, and the `used` de-duplication
set. -/
structure SortAcc where
  sorts : List SortParams
  invalidFields : List String
  invalidDirections : List String
  used : List String
deriving DecidableEq, Repr

/-- The `for _, part := range parts` loop of `ParseSorts` (sort.go:38-67).
The `allowedFields` Go map is an association list; only lookups are
performed on it, so iteration order does not arise. -/
def parseSortsLoop (allowedFields : List (String × String)) :
    List String → SortAcc → SortAcc
  | [], st => st
  | part :: restParts, st =>
      let item := goSplit part ':'
      let fieldKey := item.headD ""
      match (allowedFields.find? (fun kv => kv.1 == fieldKey)).map (fun kv => kv.2) with
      | none =>
          parseSortsLoop allowedFields restParts
            { st with invalidFields := st.invalidFields ++ [fieldKey] }
      | some dbField =>
          if st.used.contains fieldKey then
            parseSortsLoop allowedFields restParts st
          else
            let st1 := { st with used := st.used ++ [fieldKey] }
            if item.length = 2 then
              let dir := goToLower (item.getD 1 "")
              if dir ≠ "asc" ∧ dir ≠ "desc" then
                parseSortsLoop allowedFields restParts
                  { st1 with invalidDirections := st1.invalidDirections ++ [dir] }
              else
                parseSortsLoop allowedFields restParts
                  { st1 with sorts := st1.sorts ++ [⟨dbField, dir⟩] }
            else
              parseSortsLoop allowedFields restParts
                { st1 with sorts := st1.sorts ++ [⟨dbField, "asc"⟩] }

/-- `ParseSorts` (sort.go:18-81). -/
def ParseSorts (q : List (String × String)) (allowedFields : List (String × String))
    (defaultSorts : List SortParams) :
    Except SortValidationError (List SortParams) :=
  let sortQuery := getQuery q "sort"
  if sortQuery = "" then .ok defaultSorts
  else
    let st := parseSortsLoop allowedFields (goSplit sortQuery ',') ⟨[], [], [], []⟩
    if st.invalidFields.length > 0 ∨ st.invalidDirections.length > 0 then
      .error ⟨st.invalidFields, st.invalidDirections⟩
    else if st.sorts.length = 0 then .ok defaultSorts
    else .ok st.sorts

structure FilterValidationError where
  invalidParams : List String
deriving DecidableEq, Repr

/-- `FilterValidationError.Error()` (filter.go:18-20). -/
def FilterValidationError.errorMessage (e : FilterValidationError) : String :=
  "invalid query parameters: " ++ goJoin e.invalidParams ", "

/-- Distinct query keys in first-occurrence order (the iteration over the
`url.Values` map in filter.go:42-46; Go map order is unspecified, a fixed
order is taken as its representative). -/
def distinctKeys (seen : List String) : List String → List String
  | [] => []
  | k :: rest =>
      if seen.contains k then distinctKeys seen rest
      else k :: distinctKeys (k :: seen) rest

/-- `ParseFilters` (filter.go:25-62): rejects any query parameter outside
the allow-list plus the always-allowed `page` and `limit`, then extracts
the non-empty allow-listed values. -/
def ParseFilters (q : List (String × String)) (allowedParams : List String) :
    Except FilterValidationError FilterParams :=
  let allowedMap := allowedParams ++ ["page", "limit"]
  let invalidParams :=
    (distinctKeys [] (q.map (fun kv => kv.1))).filter
      (fun k => ¬ allowedMap.contains k)
  if invalidParams.length > 0 then
    .error ⟨invalidParams⟩
  else
    .ok (allowedParams.filterMap (fun p =>
      let v := getQuery q p
      if v ≠ "" then some (p, v) else none))

/-- `getAllUsersAllowedFilters` (user handler): only name and email. -/
def getAllUsersAllowedFilters : List String := ["name", "email"]

/-- `getAllUsersAllowedSorts` (user handler). -/
def getAllUsersAllowedSorts : List (String × String) :=
  [("id", "id"), ("email", "email"), ("name", "name"),
   ("created_at", "created_at"), ("updated_at", "updated_at")]

/-- `getAllUsersDefaultSorts` (user handler). -/
def getAllUsersDefaultSorts : List SortParams :=
  [⟨"created_at", "desc"⟩]

/-- `userUsecase.GetAllUsers`: GetAll and Count over the same filters,
joined all-or-nothing (the errgroup's first-error-wins choice is
deterministic here because both oracles are explicit). -/
def userUsecase.GetAllUsers (r : UserRepositoryDeps) (ctx : GoContext) (db : DB)
    (pagination : PaginationParams) (filters : FilterParams)
    (sorts : List SortParams) (getAllErr countErr : Option GoError) :
    Except GoError (List UserResponse × Int) :=
  match (userRepository.GetAll r ctx db pagination filters sorts getAllErr).1 with
  | .error e => .error e
  | .ok users =>
      match (userRepository.Count r ctx db filters countErr).1 with
      | .error e => .error e
      | .ok total => .ok (users.map User.toResponse, total)

/-- Modelled from the spec: the response envelope helpers
(`utils.ErrorResponse`, `utils.PaginatedResponse`, `utils.CalculatePagination`)
are not among the provided sources; the spec fixes an envelope
`{success, message?, data?, error?}` with a nested pagination block
`{page, limit, total_rows, total_pages}` and ceiling-division pages.
Only the status code and the carried strings matter to the claims; the
status codes themselves come from the handler call sites, which are in
the source. -/
inductive GetAllReply where
  | errorReply (status : Nat) (message : String) (errText : String)
  | pageReply (status : Nat) (users : List UserResponse)
      (page limit totalRows totalPages : Int)
deriving DecidableEq, Repr

/-- `UserHandler.GetAllUsers` (user handler): parse pagination, then
sorts (400 on invalid), then filters (400 on invalid), then run the
usecase against the store and answer 200 with the page. The request
context of a fresh HTTP request carries no transaction. -/
def UserHandler.GetAllUsers (q : List (String × String)) (db : DB) : GetAllReply :=
  let pagination := ParsePagination q
  match ParseSorts q getAllUsersAllowedSorts getAllUsersDefaultSorts with
  | .error e => .errorReply 400 "Invalid sort parameters" e.errorMessage
  | .ok sorts =>
      match ParseFilters q getAllUsersAllowedFilters with
      | .error e => .errorReply 400 "Invalid query parameters" e.errorMessage
      | .ok filters =>
          match userUsecase.GetAllUsers ⟨some ()⟩ ⟨none, 0⟩ db pagination filters sorts none none with
          | .error _ => .errorReply 500 "Failed to get users" ""
          | .ok (users, total) =>
              .pageReply 200 users pagination.page pagination.limit total
                ((total + pagination.limit - 1) / pagination.limit)

/-- C8: evaluation of the list endpoint at the claim's inputs.  The sort
layer itself accepts `sort=name:desc`, but the handler rejects the whole
request with 400 "invalid query parameters: sort" before any query runs,
because `ParseFilters` allow-lists only name, email, page and limit and
flags the `sort` key as invalid — so the claim's 200-with-descending-names
outcome is unreachable.  The rejection half of the claim does hold:
`sort=bogus:asc` is answered 400 naming the invalid field `bogus`. -/
theorem C8_sort_request_rejected_by_filter_allowlist :
    ParseSorts [("sort", "name:desc")] getAllUsersAllowedSorts getAllUsersDefaultSorts
      = .ok [⟨"name", "desc"⟩] ∧
    UserHandler.GetAllUsers [("sort", "name:desc")]
        ⟨[⟨1, "a@b.c", "Ann", "h", 0, 0⟩, ⟨2, "z@b.c", "Zoe", "h", 1, 1⟩], 3, 9⟩
      = .errorReply 400 "Invalid query parameters" "invalid query parameters: sort" ∧
    UserHandler.GetAllUsers [("sort", "bogus:asc")]
        ⟨[⟨1, "a@b.c", "Ann", "h", 0, 0⟩, ⟨2, "z@b.c", "Zoe", "h", 1, 1⟩], 3, 9⟩
      = .errorReply 400 "Invalid sort parameters" "invalid sort field: bogus" := by
  refine ⟨by decide, by decide, by decide⟩
